import Mathlib

/-!
# Verification of the BMI calculator and tracker

Shallow embedding of `src/bmi_gui_app.py`. Python floats are modelled as
rationals (`ℚ`); the SQLite store (tables `users` and `records`) is modelled
as explicit state (`DB`) threaded through the storage helpers; the GUI
callbacks are modelled as functions of the parsed input values and the
current wall-clock timestamp string.
-/

/-- One row of the `records` table
(`id, user_id, date, weight_kg, height_m, bmi, category`). -/
structure BmiRecord where
  id : Nat
  user_id : Nat
  date : String
  weight_kg : ℚ
  height_m : ℚ
  bmi : ℚ
  category : String
deriving DecidableEq, Repr

/-- The persistent store: the `users` table (rows `(id, name)`), the `records`
table, and the AUTOINCREMENT counters for the two primary keys. -/
structure DB where
  users : List (Nat × String)
  records : List BmiRecord
  nextUserId : Nat
  nextRecordId : Nat
deriving DecidableEq, Repr

/-- A freshly initialised database: both tables empty, AUTOINCREMENT at 1. -/
def dbEmpty : DB := ⟨[], [], 1, 1⟩

/-- Python's `str.strip()`: drop leading and trailing whitespace. (Stated on
the character list so that it evaluates by kernel reduction.) -/
def strip (s : String) : String :=
  ⟨((s.data.dropWhile Char.isWhitespace).reverse.dropWhile
      Char.isWhitespace).reverse⟩

/-- `get_or_create_user(name)`: strips the name, returns `None` when the
stripped name is empty; otherwise looks the name up in `users` and returns
the existing id, or inserts a new row and returns its id. (The Python code
rebinds `name = name.strip()`; here `strip name` is written out each time.) -/
def get_or_create_user (db : DB) (name : String) : Option Nat × DB :=
  if strip name = "" then (none, db)
  else
    match db.users.find? (fun u => u.2 == strip name) with
    | some u => (some u.1, db)
    | none =>
        (some db.nextUserId,
         { db with
             users := db.users ++ [(db.nextUserId, strip name)],
             nextUserId := db.nextUserId + 1 })

/-- `save_record(user_id, weight, height, bmi, category)`: inserts one row
into `records`, timestamped with `now` (`datetime.now().isoformat`, passed in
as a parameter since wall-clock time is external). -/
def save_record (db : DB) (user_id : Nat) (weight height bmi : ℚ)
    (category : String) (now : String) : DB :=
  { db with
      records := db.records ++
        [⟨db.nextRecordId, user_id, now, weight, height, bmi, category⟩],
      nextRecordId := db.nextRecordId + 1 }

/-- `calculate_bmi(weight_kg, height_m)`: raises `ValueError` when
`height_m <= 0`, otherwise returns `weight_kg / height_m ** 2`. -/
def calculate_bmi (weight_kg height_m : ℚ) : Except String ℚ :=
  if height_m ≤ 0 then Except.error "Height must be positive and non-zero."
  else Except.ok (weight_kg / height_m ^ 2)

/-- `bmi_category(bmi)`: the four WHO-style bands via chained `<` tests. -/
def bmi_category (bmi : ℚ) : String :=
  if bmi < 18.5 then "Underweight"
  else if bmi < 25.0 then "Normal"
  else if bmi < 30.0 then "Overweight"
  else "Obese"

/-- Record ordering used by `fetch_records_for_user`'s `ORDER BY date`:
ascending on the ISO-8601 `date` text. -/
def dateLe (a b : BmiRecord) : Prop := a.date ≤ b.date

instance : DecidableRel dateLe :=
  fun a b => inferInstanceAs (Decidable (a.date ≤ b.date))

instance : IsTotal BmiRecord dateLe := ⟨fun a b => le_total a.date b.date⟩

instance : IsTrans BmiRecord dateLe := ⟨fun _ _ _ => le_trans⟩

/-- `fetch_records_for_user(user_id)`:
`SELECT ... FROM records WHERE user_id = ? ORDER BY date`, modelled as the
rows of `records` for this user, sorted ascending by the `date` text. -/
def fetch_records_for_user (db : DB) (user_id : Nat) : List BmiRecord :=
  List.insertionSort dateLe (db.records.filter (fun r => r.user_id == user_id))

/-- The per-record dict built by `fetch_all_records_for_user_as_dicts`,
keys in insertion order: `id, date, weight_kg, height_m, bmi, category`. -/
structure RecordDict where
  id : Nat
  date : String
  weight_kg : ℚ
  height_m : ℚ
  bmi : ℚ
  category : String
deriving DecidableEq, Repr

/-- `fetch_all_records_for_user_as_dicts(user_id)`: the user's records
(date-ordered) repackaged as dicts, `id` key included. -/
def fetch_all_records_for_user_as_dicts (db : DB) (user_id : Nat) :
    List RecordDict :=
  (fetch_records_for_user db user_id).map
    (fun r => ⟨r.id, r.date, r.weight_kg, r.height_m, r.bmi, r.category⟩)

/-- One cell of the exported CSV, before its textual serialization: the
integer `id`, the `date`/`category` strings, or a raw numeric value. -/
inductive Cell where
  | natC (n : Nat)
  | strC (s : String)
  | ratC (q : ℚ)
deriving DecidableEq, Repr

/-- The header row the csv-module fallback writes
(`writer.writerow(["date", "weight_kg", "height_m", "bmi", "category"])`). -/
def csvHeader : List String :=
  ["date", "weight_kg", "height_m", "bmi", "category"]

/-- The header the pandas path writes: `pd.DataFrame(recs).to_csv` keeps all
six dict keys, so the `id` column comes first. -/
def pandasHeader : List String :=
  ["id", "date", "weight_kg", "height_m", "bmi", "category"]

/-- A data row on the csv-module fallback path:
`writer.writerow([r["date"], r["weight_kg"], r["height_m"], r["bmi"],
r["category"]])` — five cells, no id, numeric values raw. -/
def csvModuleRow (d : RecordDict) : List Cell :=
  [Cell.strC d.date, Cell.ratC d.weight_kg, Cell.ratC d.height_m,
   Cell.ratC d.bmi, Cell.strC d.category]

/-- A data row on the pandas path: all six dict values in key order,
leading with the record id. -/
def pandasRow (d : RecordDict) : List Cell :=
  [Cell.natC d.id, Cell.strC d.date, Cell.ratC d.weight_kg,
   Cell.ratC d.height_m, Cell.ratC d.bmi, Cell.strC d.category]

/-- `export_history_csv` for a selected user who has records: branches on
`PANDAS_AVAILABLE`. With pandas, `pd.DataFrame(recs).to_csv(path,
index=False)` writes the six-column header and rows (id first); otherwise
the csv module writes the five-column header and rows. Both write the
stored numeric values unchanged. -/
def export_history_csv (pandasAvailable : Bool) (db : DB) (user_id : Nat) :
    List String × List (List Cell) :=
  if pandasAvailable then
    (pandasHeader, (fetch_all_records_for_user_as_dicts db user_id).map
      pandasRow)
  else
    (csvHeader, (fetch_all_records_for_user_as_dicts db user_id).map
      csvModuleRow)

/-- `on_calculate_and_save`: strips the entered name and rejects an empty
one; computes the BMI (rejecting `height ≤ 0` via `calculate_bmi`) and its
category; resolves the user via `get_or_create_user`; and inserts the record
via `save_record`. Message boxes and widget refreshes carry no state and are
dropped; parse failures of `float(...)` are outside the model, which takes
the already-parsed numbers. -/
def on_calculate_and_save (db : DB) (name : String) (weight height : ℚ)
    (now : String) : DB :=
  if strip name = "" then db
  else
    match calculate_bmi weight height with
    | Except.error _ => db
    | Except.ok bmi =>
        match get_or_create_user db (strip name) with
        | (none, db1) => db1
        | (some user_id, db1) =>
            save_record db1 user_id weight height bmi (bmi_category bmi) now

/-- Two-decimal rounding, modelling the `:.2f` display format used for the
BMI result and the statistics labels (no value in this development falls on
a rounding tie, so half-even versus half-up is immaterial). -/
def roundTwo (x : ℚ) : ℚ := ((⌊x * 100 + 1/2⌋ : ℤ) : ℚ) / 100

/-- The statistics part of `populate_history_for_user`: over the list of the
user's BMI values, `none` (rendered "N/A" on all three labels) when the list
is empty, otherwise `statistics.mean`, `min`, `max`, each displayed rounded
to two decimals. -/
def historyStats (bmis : List ℚ) : Option (ℚ × ℚ × ℚ) :=
  match bmis with
  | [] => none
  | b :: rest =>
      some (roundTwo ((b :: rest).sum / ((b :: rest).length : ℚ)),
            roundTwo (rest.foldl min b),
            roundTwo (rest.foldl max b))

/-- The statistics labels for a user, from the stored records. -/
def populate_history_stats (db : DB) (user_id : Nat) :
    Option (ℚ × ℚ × ℚ) :=
  historyStats ((fetch_records_for_user db user_id).map (fun r => r.bmi))

/-! ## Helper lemmas -/

theorem strip_empty : strip "" = "" := rfl

theorem strip_ne_of_strip_strip_ne {s : String} (h : strip (strip s) ≠ "") :
    strip s ≠ "" := fun e => h (by rw [e]; rfl)

theorem calculate_bmi_of_pos (w h : ℚ) (hh : 0 < h) :
    calculate_bmi w h = Except.ok (w / h ^ 2) := by
  unfold calculate_bmi
  rw [if_neg (not_le.mpr hh)]

theorem calculate_bmi_of_nonpos (w h : ℚ) (hh : h ≤ 0) :
    calculate_bmi w h = Except.error "Height must be positive and non-zero." := by
  unfold calculate_bmi
  rw [if_pos hh]

theorem goc_snd_records (db : DB) (name : String) :
    ((get_or_create_user db name).2).records = db.records := by
  unfold get_or_create_user
  split
  · rfl
  · split <;> rfl

theorem goc_snd_nextRecordId (db : DB) (name : String) :
    ((get_or_create_user db name).2).nextRecordId = db.nextRecordId := by
  unfold get_or_create_user
  split
  · rfl
  · split <;> rfl

theorem goc_fst_isSome (db : DB) (name : String) (hn : strip name ≠ "") :
    ∃ uid, (get_or_create_user db name).1 = some uid := by
  unfold get_or_create_user
  rw [if_neg hn]
  cases hfind : db.users.find? (fun u => u.2 == strip name) with
  | none => exact ⟨db.nextUserId, rfl⟩
  | some u => exact ⟨u.1, rfl⟩

theorem goc_fresh (db : DB) (name : String) (hn : strip name ≠ "")
    (hfresh : ∀ u ∈ db.users, u.2 ≠ strip name) :
    get_or_create_user db name =
      (some db.nextUserId,
       { db with
           users := db.users ++ [(db.nextUserId, strip name)],
           nextUserId := db.nextUserId + 1 }) := by
  unfold get_or_create_user
  rw [if_neg hn]
  have hfind : db.users.find? (fun u => u.2 == strip name) = none := by
    rw [List.find?_eq_none]
    intro u hu
    simpa using hfresh u hu
  rw [hfind]

theorem goc_found (db : DB) (name : String) (u : Nat × String)
    (hn : strip name ≠ "")
    (hfind : db.users.find? (fun v => v.2 == strip name) = some u) :
    get_or_create_user db name = (some u.1, db) := by
  unfold get_or_create_user
  rw [if_neg hn, hfind]

theorem find?_append_singleton {α : Type} (l : List α) (p : α → Bool) (x : α)
    (hl : ∀ y ∈ l, p y = false) (hx : p x = true) :
    (l ++ [x]).find? p = some x := by
  induction l with
  | nil => simp [List.find?, hx]
  | cons a as ih =>
      have ha := hl a (by simp)
      simp only [List.cons_append, List.find?, ha]
      exact ih (fun y hy => hl y (by simp [hy]))

/-- The successful path of `on_calculate_and_save`: nonblank name and
positive height lead to a `save_record` call on the post-lookup store. -/
theorem ocs_eq_save (db : DB) (name : String) (w h : ℚ) (t : String)
    (hn : strip (strip name) ≠ "") (hh : 0 < h) :
    ∃ uid db2, get_or_create_user db (strip name) = (some uid, db2) ∧
      on_calculate_and_save db name w h t =
        save_record db2 uid w h (w / h ^ 2) (bmi_category (w / h ^ 2)) t := by
  have hn1 : strip name ≠ "" := strip_ne_of_strip_strip_ne hn
  obtain ⟨uid, huid⟩ := goc_fst_isSome db (strip name) hn
  refine ⟨uid, (get_or_create_user db (strip name)).2, ?_, ?_⟩
  · rw [← huid]
  · unfold on_calculate_and_save
    rw [if_neg hn1, calculate_bmi_of_pos w h hh]
    have hE : get_or_create_user db (strip name) =
        (some uid, (get_or_create_user db (strip name)).2) := by
      rw [← huid]
    rw [hE]

/-! ## Claim theorems -/

/-- C1: for every weight and every height with height > 0,
`calculate_bmi weight height` returns `weight / height ^ 2`. -/
theorem calculate_bmi_pos_height (weight height : ℚ) (h : 0 < height) :
    calculate_bmi weight height = Except.ok (weight / height ^ 2) :=
  calculate_bmi_of_pos weight height h

theorem calculate_bmi_pos_height_witness :
    (0 : ℚ) < 7/4 ∧ calculate_bmi 70 (7/4) = Except.ok (70 / (7/4 : ℚ) ^ 2) :=
  ⟨by norm_num, calculate_bmi_pos_height 70 (7/4) (by norm_num)⟩

/-- C2: `bmi_category` returns "Underweight" below 18.5, "Normal" on
[18.5, 25), "Overweight" on [25, 30), "Obese" from 30 on; each band is
lower-inclusive, witnessed at 18.49, 18.5, 24.99, 25.0, 29.99 and 30.0. -/
theorem bmi_category_bands :
    (∀ b : ℚ, b < 18.5 → bmi_category b = "Underweight") ∧
    (∀ b : ℚ, 18.5 ≤ b → b < 25.0 → bmi_category b = "Normal") ∧
    (∀ b : ℚ, 25.0 ≤ b → b < 30.0 → bmi_category b = "Overweight") ∧
    (∀ b : ℚ, 30.0 ≤ b → bmi_category b = "Obese") ∧
    bmi_category 18.49 = "Underweight" ∧ bmi_category 18.5 = "Normal" ∧
    bmi_category 24.99 = "Normal" ∧ bmi_category 25.0 = "Overweight" ∧
    bmi_category 29.99 = "Overweight" ∧ bmi_category 30.0 = "Obese" := by
  refine ⟨fun b hb => ?_, fun b hb1 hb2 => ?_, fun b hb1 hb2 => ?_,
    fun b hb => ?_, ?_, ?_, ?_, ?_, ?_, ?_⟩ <;>
    unfold bmi_category
  · rw [if_pos hb]
  · rw [if_neg (not_lt.mpr hb1), if_pos hb2]
  · rw [if_neg (by exact not_lt.mpr (by linarith)), if_neg (not_lt.mpr hb1),
      if_pos hb2]
  · rw [if_neg (by exact not_lt.mpr (by linarith)),
      if_neg (by exact not_lt.mpr (by linarith)), if_neg (not_lt.mpr hb)]
  all_goals norm_num

theorem bmi_category_bands_witness :
    (18.5 : ℚ) ≤ 20 ∧ (20 : ℚ) < 25.0 ∧ bmi_category 20 = "Normal" :=
  ⟨by norm_num, by norm_num,
   bmi_category_bands.2.1 20 (by norm_num) (by norm_num)⟩

/-- C3: `calculate_bmi weight height` fails with the validation error
exactly when `height ≤ 0`; no call with positive height fails. -/
theorem calculate_bmi_error_iff_nonpos_height (weight height : ℚ) :
    (∃ msg, calculate_bmi weight height = Except.error msg) ↔ height ≤ 0 := by
  constructor
  · intro ⟨msg, hmsg⟩
    by_contra hpos
    rw [calculate_bmi_of_pos weight height (not_le.mp hpos)] at hmsg
    exact Except.noConfusion hmsg
  · intro hle
    exact ⟨_, calculate_bmi_of_nonpos weight height hle⟩

/-- C10: a name that strips down to the empty string makes
`get_or_create_user` return `None` without touching the store, and makes the
save action a no-op (no user row and no record row is created). -/
theorem blank_name_rejected (db : DB) (name : String) (w h : ℚ) (t : String)
    (hn : strip name = "") :
    get_or_create_user db name = (none, db) ∧
    on_calculate_and_save db name w h t = db := by
  constructor
  · unfold get_or_create_user
    rw [if_pos hn]
  · unfold on_calculate_and_save
    rw [if_pos hn]

theorem blank_name_rejected_witness :
    strip "   " = "" ∧
    (get_or_create_user dbEmpty "   " = (none, dbEmpty) ∧
     on_calculate_and_save dbEmpty "   " 70 (7/4) "d" = dbEmpty) :=
  ⟨by decide, blank_name_rejected dbEmpty "   " 70 (7/4) "d" (by decide)⟩

/-- C4: records added by the save action satisfy the derived-field
invariant (`bmi = weight / height²`, `category = bmi_category bmi`) and
strictly positive height; every other run leaves `records` unchanged. -/
theorem on_calculate_and_save_record_invariant (db : DB) (name : String)
    (w h : ℚ) (t : String) :
    (on_calculate_and_save db name w h t).records = db.records ∨
    ∃ r, (on_calculate_and_save db name w h t).records = db.records ++ [r] ∧
      r.bmi = r.weight_kg / r.height_m ^ 2 ∧
      r.category = bmi_category r.bmi ∧ 0 < r.height_m := by
  by_cases hn1 : strip name = ""
  · left
    unfold on_calculate_and_save
    rw [if_pos hn1]
  · by_cases hh : 0 < h
    · by_cases hn : strip (strip name) = ""
      · left
        unfold on_calculate_and_save
        rw [if_neg hn1, calculate_bmi_of_pos w h hh]
        have hgoc : get_or_create_user db (strip name) = (none, db) := by
          unfold get_or_create_user
          rw [if_pos hn]
        rw [hgoc]
      · right
        obtain ⟨uid, db2, hE, hocs⟩ := ocs_eq_save db name w h t hn hh
        have hrec : db2.records = db.records := by
          have hpr := goc_snd_records db (strip name)
          rw [hE] at hpr
          exact hpr
        refine ⟨⟨db2.nextRecordId, uid, t, w, h, w / h ^ 2,
          bmi_category (w / h ^ 2)⟩, ?_, rfl, rfl, hh⟩
        rw [hocs]
        simp [save_record, hrec]
    · left
      unfold on_calculate_and_save
      rw [if_neg hn1, calculate_bmi_of_nonpos w h (not_lt.mp hh)]

/-- C7 (amended): the save action validates only the height; for every
accepted input (nonblank name, height > 0) it stores one record whose
`weight_kg` equals the given weight — including non-positive weights — and
whose height is strictly positive. -/
theorem save_stores_given_weight_pos_height (db : DB) (name : String)
    (w h : ℚ) (t : String) (hn : strip (strip name) ≠ "") (hh : 0 < h) :
    ∃ r, (on_calculate_and_save db name w h t).records = db.records ++ [r] ∧
      r.weight_kg = w ∧ 0 < r.height_m := by
  obtain ⟨uid, db2, hE, hocs⟩ := ocs_eq_save db name w h t hn hh
  have hrec : db2.records = db.records := by
    have hpr := goc_snd_records db (strip name)
    rw [hE] at hpr
    exact hpr
  refine ⟨⟨db2.nextRecordId, uid, t, w, h, w / h ^ 2,
    bmi_category (w / h ^ 2)⟩, ?_, rfl, hh⟩
  rw [hocs]
  simp [save_record, hrec]

theorem save_stores_given_weight_pos_height_witness :
    strip (strip "u") ≠ "" ∧ (0 : ℚ) < 7/4 ∧
    ∃ r, (on_calculate_and_save dbEmpty "u" (-5) (7/4) "d").records =
        dbEmpty.records ++ [r] ∧ r.weight_kg = -5 ∧ 0 < r.height_m :=
  ⟨by decide, by norm_num,
   save_stores_given_weight_pos_height dbEmpty "u" (-5) (7/4) "d"
     (by decide) (by norm_num)⟩

/-- Concrete evaluation of one save into the fresh store: user "u" gets id 1
and the single stored record is fully determined. -/
theorem ocs_dbEmpty_records (w : ℚ) (t : String) :
    (on_calculate_and_save dbEmpty "u" w (7/4) t).records =
      [⟨1, 1, t, w, 7/4, w / (7/4 : ℚ) ^ 2,
        bmi_category (w / (7/4 : ℚ) ^ 2)⟩] := by
  obtain ⟨uid, db2, hE, hocs⟩ :=
    ocs_eq_save dbEmpty "u" w (7/4) t (by decide) (by norm_num)
  have hfreshE := goc_fresh dbEmpty (strip "u") (by decide)
    (by intro u hu; cases hu)
  rw [hfreshE] at hE
  injection hE with huid hdb2
  injection huid with huid
  rw [hocs, ← hdb2, ← huid]
  simp [save_record, dbEmpty]

/-- C7 (counterexample): with weight −5 and height 7/4 the save action
stores a record whose weight is −5, which is not strictly positive. -/
theorem save_accepts_nonpositive_weight :
    (on_calculate_and_save dbEmpty "u" (-5) (7/4) "d").records.map
        (fun r => r.weight_kg) = [-5] ∧ ¬ (0 < (-5 : ℚ)) := by
  rw [ocs_dbEmpty_records (-5) "d"]
  exact ⟨by simp, by norm_num⟩

/-- C5: saving for a fresh name adds exactly one user row and one record
row; a second save with the same name reuses the user row (user count
unchanged) and adds exactly one more record row. -/
theorem save_new_then_same_name_counts (db : DB) (name : String)
    (w h w2 h2 : ℚ) (t t2 : String)
    (hn : strip (strip name) ≠ "")
    (hfresh : ∀ u ∈ db.users, u.2 ≠ strip (strip name))
    (hh : 0 < h) (hh2 : 0 < h2) :
    (on_calculate_and_save db name w h t).users.length = db.users.length + 1 ∧
    (on_calculate_and_save db name w h t).records.length =
      db.records.length + 1 ∧
    (on_calculate_and_save (on_calculate_and_save db name w h t)
        name w2 h2 t2).users.length =
      (on_calculate_and_save db name w h t).users.length ∧
    (on_calculate_and_save (on_calculate_and_save db name w h t)
        name w2 h2 t2).records.length =
      (on_calculate_and_save db name w h t).records.length + 1 := by
  obtain ⟨uid, db2, hE, hocs⟩ := ocs_eq_save db name w h t hn hh
  have hfreshE := goc_fresh db (strip name) hn hfresh
  rw [hfreshE] at hE
  injection hE with huid hdb2
  injection huid with huid
  subst hdb2
  subst huid
  have hs1u : (on_calculate_and_save db name w h t).users =
      db.users ++ [(db.nextUserId, strip (strip name))] := by
    rw [hocs]
    simp [save_record]
  have hs1r : (on_calculate_and_save db name w h t).records.length =
      db.records.length + 1 := by
    rw [hocs]
    simp [save_record]
  obtain ⟨uid2, db3, hE2, hocs2⟩ :=
    ocs_eq_save (on_calculate_and_save db name w h t) name w2 h2 t2 hn hh2
  have hfind : (on_calculate_and_save db name w h t).users.find?
      (fun v => v.2 == strip (strip name)) =
      some (db.nextUserId, strip (strip name)) := by
    rw [hs1u]
    refine find?_append_singleton db.users _ _ (fun y hy => ?_) (by simp)
    simpa using hfresh y hy
  have hfoundE := goc_found (on_calculate_and_save db name w h t)
    (strip name) (db.nextUserId, strip (strip name)) hn hfind
  rw [hfoundE] at hE2
  injection hE2 with huid2 hdb3
  subst hdb3
  refine ⟨?_, hs1r, ?_, ?_⟩
  · rw [hs1u]
    simp
  · rw [hocs2]
    simp [save_record]
  · rw [hocs2]
    simp [save_record]

theorem save_new_then_same_name_counts_witness :
    (strip (strip "alice") ≠ "" ∧
     (∀ u ∈ dbEmpty.users, u.2 ≠ strip (strip "alice")) ∧
     (0 : ℚ) < 7/4 ∧ (0 : ℚ) < 9/5) ∧
    ((on_calculate_and_save dbEmpty "alice" 70 (7/4) "t1").users.length =
        dbEmpty.users.length + 1 ∧
     (on_calculate_and_save dbEmpty "alice" 70 (7/4) "t1").records.length =
        dbEmpty.records.length + 1 ∧
     (on_calculate_and_save
         (on_calculate_and_save dbEmpty "alice" 70 (7/4) "t1")
         "alice" 80 (9/5) "t2").users.length =
        (on_calculate_and_save dbEmpty "alice" 70 (7/4) "t1").users.length ∧
     (on_calculate_and_save
         (on_calculate_and_save dbEmpty "alice" 70 (7/4) "t1")
         "alice" 80 (9/5) "t2").records.length =
        (on_calculate_and_save dbEmpty "alice" 70 (7/4) "t1").records.length
          + 1) :=
  ⟨⟨by decide, (by intro u hu; cases hu), by norm_num, by norm_num⟩,
   save_new_then_same_name_counts dbEmpty "alice" 70 (7/4) 80 (9/5) "t1" "t2"
     (by decide) (by intro u hu; cases hu) (by norm_num) (by norm_num)⟩

/-- Evaluation rule for the two-decimal rounding. -/
theorem roundTwo_eq (x : ℚ) (z : ℤ) (h1 : (z : ℚ) ≤ x * 100 + 1/2)
    (h2 : x * 100 + 1/2 < (z : ℚ) + 1) : roundTwo x = (z : ℚ) / 100 := by
  unfold roundTwo
  rw [show ⌊x * 100 + 1/2⌋ = z from Int.floor_eq_iff.mpr ⟨h1, h2⟩]

/-- The BMI of the concrete record (w=70, h=7/4) falls in the Normal band. -/
theorem bmi_category_70_175 : bmi_category (70 / (7/4 : ℚ) ^ 2) = "Normal" := by
  unfold bmi_category
  rw [if_neg (by norm_num), if_pos (by norm_num)]

/-- The csv-module data rows after saving (w=70, h=7/4) for user "u". -/
theorem export_u_70_fallback_rows :
    (export_history_csv false (on_calculate_and_save dbEmpty "u" 70 (7/4) "d")
        1).2 =
      [[Cell.strC "d", Cell.ratC 70, Cell.ratC (7/4),
        Cell.ratC (70 / (7/4 : ℚ) ^ 2), Cell.strC "Normal"]] := by
  simp [export_history_csv, fetch_all_records_for_user_as_dicts,
    fetch_records_for_user, ocs_dbEmpty_records 70 "d", csvModuleRow,
    bmi_category_70_175, List.insertionSort, List.orderedInsert]

/-- The pandas data rows after saving (w=70, h=7/4) for user "u": the same
values with the record id prepended. -/
theorem export_u_70_pandas_rows :
    (export_history_csv true (on_calculate_and_save dbEmpty "u" 70 (7/4) "d")
        1).2 =
      [[Cell.natC 1, Cell.strC "d", Cell.ratC 70, Cell.ratC (7/4),
        Cell.ratC (70 / (7/4 : ℚ) ^ 2), Cell.strC "Normal"]] := by
  simp [export_history_csv, fetch_all_records_for_user_as_dicts,
    fetch_records_for_user, ocs_dbEmpty_records 70 "d", pandasRow,
    bmi_category_70_175, List.insertionSort, List.orderedInsert]

/-- C6 (counterexample): on both export paths the data row for the single
record (w=70, h=7/4) carries the stored BMI `70 / 1.75² = 1120/49` raw (in
the bmi column: index 3 of the fallback row, index 4 of the pandas row),
and that value differs from its two-decimal display rounding 22.86. -/
theorem export_csv_bmi_row_not_display_rounded :
    (export_history_csv false (on_calculate_and_save dbEmpty "u" 70 (7/4)
        "d") 1).2.map (fun row => row.getD 3 (Cell.strC "")) =
      [Cell.ratC (70 / (7/4 : ℚ) ^ 2)] ∧
    (export_history_csv true (on_calculate_and_save dbEmpty "u" 70 (7/4)
        "d") 1).2.map (fun row => row.getD 4 (Cell.strC "")) =
      [Cell.ratC (70 / (7/4 : ℚ) ^ 2)] ∧
    roundTwo (70 / (7/4 : ℚ) ^ 2) = 2286/100 ∧
    (70 / (7/4 : ℚ) ^ 2) ≠ 2286/100 := by
  refine ⟨?_, ?_, ?_, by norm_num⟩
  · rw [export_u_70_fallback_rows]
    rfl
  · rw [export_u_70_pandas_rows]
    rfl
  · have h := roundTwo_eq (70 / (7/4 : ℚ) ^ 2) 2286 (by norm_num)
      (by norm_num)
    rw [h]
    norm_num

/-- C6 (amended): with the csv-module fallback the header row is exactly
`date,weight_kg,height_m,bmi,category`; with pandas available a leading
`id` column is prepended to header and data rows. On both paths there is
one data row per record of the user and each row carries the stored values
raw; for the single record (w=70, h=7/4) the data row's bmi is exactly
`70 / 1.75²`, unrounded. -/
theorem export_csv_header_and_raw_values :
    (∀ db uid,
      (export_history_csv false db uid).1 =
        ["date", "weight_kg", "height_m", "bmi", "category"] ∧
      (export_history_csv true db uid).1 =
        ["id", "date", "weight_kg", "height_m", "bmi", "category"] ∧
      (export_history_csv false db uid).2 =
        (fetch_records_for_user db uid).map (fun r =>
          [Cell.strC r.date, Cell.ratC r.weight_kg, Cell.ratC r.height_m,
           Cell.ratC r.bmi, Cell.strC r.category]) ∧
      (export_history_csv true db uid).2 =
        (fetch_records_for_user db uid).map (fun r =>
          [Cell.natC r.id, Cell.strC r.date, Cell.ratC r.weight_kg,
           Cell.ratC r.height_m, Cell.ratC r.bmi, Cell.strC r.category]) ∧
      ∀ pa : Bool, ((export_history_csv pa db uid).2).length =
        (db.records.filter (fun r => r.user_id == uid)).length) ∧
    ((export_history_csv false (on_calculate_and_save dbEmpty "u" 70 (7/4)
        "d") 1).2 =
      [[Cell.strC "d", Cell.ratC 70, Cell.ratC (7/4),
        Cell.ratC (70 / (7/4 : ℚ) ^ 2), Cell.strC "Normal"]] ∧
     (export_history_csv true (on_calculate_and_save dbEmpty "u" 70 (7/4)
        "d") 1).2 =
      [[Cell.natC 1, Cell.strC "d", Cell.ratC 70, Cell.ratC (7/4),
        Cell.ratC (70 / (7/4 : ℚ) ^ 2), Cell.strC "Normal"]]) := by
  refine ⟨fun db uid => ⟨rfl, rfl, ?_, ?_, ?_⟩,
    export_u_70_fallback_rows, export_u_70_pandas_rows⟩
  · show (fetch_all_records_for_user_as_dicts db uid).map csvModuleRow = _
    rw [fetch_all_records_for_user_as_dicts, List.map_map]
    rfl
  · show (fetch_all_records_for_user_as_dicts db uid).map pandasRow = _
    rw [fetch_all_records_for_user_as_dicts, List.map_map]
    rfl
  · have hlen : (fetch_records_for_user db uid).length =
        (db.records.filter (fun r => r.user_id == uid)).length :=
      (List.perm_insertionSort dateLe _).length_eq
    intro pa
    cases pa <;>
      simp [export_history_csv, fetch_all_records_for_user_as_dicts, hlen]

/-- C9: for every user, the record listing (used by the history table, the
chart and the CSV export) is exactly that user's records, ordered ascending
by the `date` field. -/
theorem fetch_records_for_user_sorted_by_date (db : DB) (uid : Nat) :
    (fetch_records_for_user db uid).Perm
      (db.records.filter (fun r => r.user_id == uid)) ∧
    List.Sorted dateLe (fetch_records_for_user db uid) :=
  ⟨List.perm_insertionSort dateLe _, List.sorted_insertionSort dateLe _⟩

/-- C8: the mean/min/max summary is the absence marker (rendered "N/A") on
an empty record set, and (23.33, 18, 30) on the BMI list [18, 22, 30],
rounded to two decimals. -/
theorem history_stats_empty_and_example :
    historyStats [] = none ∧
    historyStats [18, 22, 30] = some (2333/100, 18, 30) := by
  have rt1 : roundTwo (70/3 : ℚ) = 2333/100 := by
    have h := roundTwo_eq (70/3 : ℚ) 2333 (by norm_num) (by norm_num)
    rw [h]
    norm_num
  have rt2 : roundTwo (18 : ℚ) = 18 := by
    have h := roundTwo_eq (18 : ℚ) 1800 (by norm_num) (by norm_num)
    rw [h]
    norm_num
  have rt3 : roundTwo (30 : ℚ) = 30 := by
    have h := roundTwo_eq (30 : ℚ) 3000 (by norm_num) (by norm_num)
    rw [h]
    norm_num
  refine ⟨rfl, ?_⟩
  unfold historyStats
  norm_num [min_def, max_def]
  exact ⟨rt1, rt2, rt3⟩
